import Mathlib

/-!
Verification of the cross-cloud storage replicator (`src/app.py`) against its
natural-language specification.  The Python source is shallowly embedded:
pure fragments become Lean functions, exceptions become `Except`, the S3 and
GCS collaborators become explicit state (`World`), and the handler returns a
`Trace` recording its outcome together with the observable effects the spec
talks about (destination writes, transfer attempts, backoff sleeps, stream
opens/closes).
-/

namespace Replicator

/-! ## Retry controller (`retry_fn`, app.py lines 85–95)

```python
def retry_fn(fn, attempts=3, backoff=2):
    last_exc = None
    for i in range(attempts):
        try:
            return fn()
        except Exception as e:
            last_exc = e
            logger.warning(f"Attempt {i+1} failed: {e}")
            if i < attempts - 1:
                time.sleep(backoff * (i+1))
    raise last_exc
```

The attempt function is modelled as `fn : Nat → Except E A`, where `fn k` is
the outcome of the k-th invocation (1-indexed).  `retryGo` mirrors the loop:
`i` is Python's loop variable and `r + 1` the number of iterations left, so
`i < attempts - 1` is exactly `r ≥ 1`.  The result records the number of
invocations performed, the list of sleep durations in order, and either the
returned value or the exception finally raised (`Except.error none` models
`raise None`, reachable only when `attempts = 0`). -/

def retryGo {E A : Type} (fn : Nat → Except E A) (backoff : Nat) :
    (i : Nat) → (remaining : Nat) → Option E → Nat × List Nat × Except (Option E) A
  | _, 0, last => (0, [], .error last)
  | i, r + 1, _ =>
    match fn (i + 1) with
    | .ok a => (1, [], .ok a)
    | .error e =>
      let rest := retryGo fn backoff (i + 1) r (some e)
      (rest.1 + 1, (if r ≥ 1 then [backoff * (i + 1)] else []) ++ rest.2.1, rest.2.2)

def retry_fn {E A : Type} (fn : Nat → Except E A) (attempts backoff : Nat) :
    Nat × List Nat × Except (Option E) A :=
  retryGo fn backoff 0 attempts none

/-- If every invocation from `i + 1` through `i + r` fails with `err k`,
the loop performs all `r` remaining invocations, sleeps `backoff * k` after
each failed attempt `k` except the last iteration, and raises the error of
the final invocation. -/
theorem retryGo_all_fail {E A : Type} (fn : Nat → Except E A) (err : Nat → E)
    (backoff : Nat) :
    ∀ r i last, 1 ≤ r →
      (∀ k, i + 1 ≤ k → k ≤ i + r → fn k = .error (err k)) →
      retryGo fn backoff i r last =
        (r, (List.range' (i + 1) (r - 1)).map (fun m => backoff * m),
          .error (some (err (i + r)))) := by
  intro r
  induction r with
  | zero => intro i last h _; omega
  | succ r ih =>
    intro i last _ hfail
    have hfi : fn (i + 1) = .error (err (i + 1)) := hfail (i + 1) (le_refl _) (by omega)
    rcases Nat.eq_zero_or_pos r with hr | hr
    · subst hr
      simp [retryGo, hfi]
    · obtain ⟨q, rfl⟩ : ∃ q, r = q + 1 := ⟨r - 1, by omega⟩
      have ihs := ih (i + 1) (some (err (i + 1))) (by omega)
        (fun k hk1 hk2 => hfail k (by omega) (by omega))
      rw [retryGo]
      simp only [hfi, ihs, Prod.mk.injEq, Nat.add_sub_cancel]
      refine ⟨trivial, ?_, by rw [show i + 1 + (q + 1) = i + (q + 1 + 1) from by omega]⟩
      rw [if_pos (by omega : q + 1 ≥ 1), List.range'_succ]
      simp

/-- If the invocations `i + 1, …, i + j` fail and invocation `i + j + 1`
succeeds with `a`, within the remaining budget, the loop stops right after
the success: `j + 1` invocations, one sleep after each failed attempt, and
the successful value is returned. -/
theorem retryGo_first_success {E A : Type} (fn : Nat → Except E A) (err : Nat → E)
    (a : A) (backoff : Nat) :
    ∀ j i r last, j < r →
      (∀ k, i + 1 ≤ k → k ≤ i + j → fn k = .error (err k)) →
      fn (i + j + 1) = .ok a →
      retryGo fn backoff i r last =
        (j + 1, (List.range' (i + 1) j).map (fun m => backoff * m), .ok a) := by
  intro j
  induction j with
  | zero =>
    intro i r last hlt hfail hsucc
    obtain ⟨q, rfl⟩ : ∃ q, r = q + 1 := ⟨r - 1, by omega⟩
    rw [retryGo]
    simp only [show i + 0 + 1 = i + 1 from by omega] at hsucc
    simp [hsucc]
  | succ j ih =>
    intro i r last hlt hfail hsucc
    obtain ⟨q, rfl⟩ : ∃ q, r = q + 1 := ⟨r - 1, by omega⟩
    have hfi : fn (i + 1) = .error (err (i + 1)) := hfail (i + 1) (le_refl _) (by omega)
    have ihs := ih (i + 1) q (some (err (i + 1))) (by omega)
      (fun k hk1 hk2 => hfail k (by omega) (by omega))
      (by rw [show i + 1 + j + 1 = i + (j + 1) + 1 from by omega]; exact hsucc)
    rw [retryGo]
    simp only [hfi, ihs, Prod.mk.injEq]
    refine ⟨trivial, ?_, trivial⟩
    rw [if_pos (by omega : q ≥ 1), List.range'_succ]
    simp

/-- Claim C2: if the attempt function fails on every invocation, `retry_fn`
invokes it exactly `attempts` times, sleeps `backoff * i` after each
1-indexed attempt `i < attempts` and performs no other sleeps, and finally
fails with the error raised by the last attempt. -/
theorem retry_fn_exhaustion {E A : Type} (fn : Nat → Except E A) (err : Nat → E)
    (attempts backoff : Nat) (hatt : 1 ≤ attempts)
    (hfail : ∀ k, 1 ≤ k → k ≤ attempts → fn k = .error (err k)) :
    retry_fn fn attempts backoff =
      (attempts, (List.range' 1 (attempts - 1)).map (fun m => backoff * m),
        .error (some (err attempts))) := by
  unfold retry_fn
  have h := retryGo_all_fail fn err backoff attempts 0 none hatt
    (fun k hk1 hk2 => hfail k (by omega) (by omega))
  simpa using h

/-- Witness for C2: with an attempt function that always fails, `attempts = 3`
and `backoff = 2`, the controller makes 3 calls, sleeps 2 then 4 seconds, and
raises the third attempt's error. -/
theorem retry_fn_exhaustion_witness :
    retry_fn (fun k => (Except.error k : Except Nat Unit)) 3 2 =
      (3, [2, 4], Except.error (some 3)) := by
  have h := retry_fn_exhaustion (fun k => (Except.error k : Except Nat Unit))
    (fun k => k) 3 2 (by omega) (fun k h1 h2 => rfl)
  simpa using h

/-- Claim C9: if the attempt function first succeeds on invocation
`k0 ≤ attempts`, `retry_fn` invokes it exactly `k0` times, the only sleeps
are the `k0 - 1` backoffs between the failed attempts (so none after the
successful invocation), and the successful result is returned unchanged. -/
theorem retry_fn_first_success {E A : Type} (fn : Nat → Except E A) (err : Nat → E)
    (a : A) (attempts backoff k0 : Nat) (hk1 : 1 ≤ k0) (hk2 : k0 ≤ attempts)
    (hfail : ∀ k, 1 ≤ k → k < k0 → fn k = .error (err k))
    (hsucc : fn k0 = .ok a) :
    retry_fn fn attempts backoff =
      (k0, (List.range' 1 (k0 - 1)).map (fun m => backoff * m), .ok a) := by
  unfold retry_fn
  have h := retryGo_first_success fn err a backoff (k0 - 1) 0 attempts none (by omega)
    (fun k hka hkb => hfail k (by omega) (by omega))
    (by rw [show 0 + (k0 - 1) + 1 = k0 from by omega]; exact hsucc)
  simpa [show k0 - 1 + 1 = k0 from by omega] using h

/-- Witness for C9: an attempt function that fails once then succeeds, with
`attempts = 3` and `backoff = 2`, is called exactly twice, sleeps once for 2
seconds, and its value is returned unchanged. -/
theorem retry_fn_first_success_witness :
    retry_fn (fun k => if k < 2 then (Except.error k : Except Nat String) else .ok "done") 3 2 =
      (2, [2], Except.ok "done") := by
  have h := retry_fn_first_success
    (fun k => if k < 2 then (Except.error k : Except Nat String) else .ok "done")
    (fun k => k) "done" 3 2 2 (by omega) (by omega)
    (fun k h1 h2 => by
      have hk : k = 1 := by omega
      subst hk; rfl)
    rfl
  simpa using h

/-! ## Key decoding (`urllib.parse.unquote_plus`, used at app.py line 106)

`unquote_plus` first replaces every `+` by a space and then percent-decodes
the string once: each `%xy` with two hex digits becomes the character with
code `16*x + y`; malformed escapes are left untouched. -/

def hexDigitVal (c : Char) : Option Nat :=
  if '0' ≤ c ∧ c ≤ '9' then some (c.toNat - '0'.toNat)
  else if 'a' ≤ c ∧ c ≤ 'f' then some (c.toNat - 'a'.toNat + 10)
  else if 'A' ≤ c ∧ c ≤ 'F' then some (c.toNat - 'A'.toNat + 10)
  else none

def percentDecode : List Char → List Char
  | [] => []
  | '%' :: a :: b :: rest =>
    match hexDigitVal a, hexDigitVal b with
    | some ha, some hb => Char.ofNat (16 * ha + hb) :: percentDecode rest
    | _, _ => '%' :: percentDecode (a :: b :: rest)
  | c :: rest => c :: percentDecode rest

def unquote_plus (s : String) : String :=
  String.mk (percentDecode (s.data.map (fun c => if c = '+' then ' ' else c)))

/-! ## Streaming transfer engine (`upload_stream_to_gcs`, app.py lines 66–74)

```python
def upload_stream_to_gcs(bucket_obj, dest_blob_name, s3_stream):
    blob = bucket_obj.blob(dest_blob_name)
    with blob.open("wb") as f:
        chunk_size = 8 * 1024 * 1024  # 8 MB
        while True:
            chunk = s3_stream.read(chunk_size)
            if not chunk:
                break
            f.write(chunk)
```

A source stream is a byte sequence (`List Nat`); `read(chunk_size)` takes
the next `chunkSizeBytes` bytes.  A GCS bucket is a map from blob name to
byte content; committing the destination write-stream on close stores the
concatenation of the written chunks. -/

def chunkSizeBytes : Nat := 8 * 1024 * 1024

def writeChunks (stream acc : List Nat) : List Nat :=
  if hck : (stream.take chunkSizeBytes).isEmpty then acc
  else writeChunks (stream.drop chunkSizeBytes) (acc ++ stream.take chunkSizeBytes)
termination_by stream.length
decreasing_by
  have hs : stream ≠ [] := by
    intro he
    rw [he] at hck
    simp at hck
  have hpos : 0 < stream.length := List.length_pos.mpr hs
  simp only [List.length_drop]
  have : 0 < chunkSizeBytes := by norm_num [chunkSizeBytes]
  omega

theorem writeChunks_eq_aux :
    ∀ (n : Nat) (stream acc : List Nat), stream.length ≤ n →
      writeChunks stream acc = acc ++ stream := by
  intro n
  induction n with
  | zero =>
    intro stream acc hlen
    have hnil : stream = [] := List.eq_nil_of_length_eq_zero (by omega)
    subst hnil
    rw [writeChunks]
    simp
  | succ n ih =>
    intro stream acc hlen
    rw [writeChunks]
    split
    · next h =>
      have hnil : stream = [] := by
        rcases (List.take_eq_nil_iff).mp (List.isEmpty_iff.mp h) with hz | hs
        · exact absurd hz (by norm_num [chunkSizeBytes])
        · exact hs
      rw [hnil]
      simp
    · next h =>
      have hs : stream ≠ [] := by
        intro he
        rw [he] at h
        simp at h
      have hpos : 0 < stream.length := List.length_pos.mpr hs
      have hcz : 0 < chunkSizeBytes := by norm_num [chunkSizeBytes]
      rw [ih (stream.drop chunkSizeBytes) (acc ++ stream.take chunkSizeBytes)
        (by simp only [List.length_drop]; omega)]
      rw [List.append_assoc, List.take_append_drop]

theorem writeChunks_spec (stream acc : List Nat) : writeChunks stream acc = acc ++ stream :=
  writeChunks_eq_aux stream.length stream acc (le_refl _)

def GcsBucket : Type := String → Option (List Nat)

def writeBlob (b : GcsBucket) (name : String) (bytes : List Nat) : GcsBucket :=
  fun k => if k = name then some bytes else b k

def upload_stream_to_gcs (bucketObj : GcsBucket) (destBlobName : String)
    (s3Stream : List Nat) : GcsBucket :=
  writeBlob bucketObj destBlobName (writeChunks s3Stream [])

/-! ## Event normalization (app.py lines 100–110)

```python
record = event["Records"][0]
s3_bucket = record["s3"]["bucket"]["name"]
raw_key = record["s3"]["object"]["key"]
s3_key = urllib.parse.unquote_plus(raw_key)
```

A missing `Records` entry or a missing/ill-shaped nested field raises
(`KeyError`/`IndexError`), which the handler re-raises after logging
"Invalid event format" — the `MalformedEvent` classification of the spec. -/

structure S3Record where
  bucketName : Option String
  objectKey : Option String

structure RawEvent where
  records : List S3Record

def normalizeEvent (event : RawEvent) : Except Unit (String × String) :=
  match event.records with
  | [] => .error ()
  | record :: _ =>
    match record.bucketName, record.objectKey with
    | some bucketName, some rawKey => .ok (bucketName, unquote_plus rawKey)
    | _, _ => .error ()

/-! ## Configuration and client initialization (app.py lines 36–58)

Python truthiness on environment strings: an unset variable (`None`) and an
empty string are both falsy, so `if GCP_SA_KEY: ... elif GCP_SA_KEY_B64: ...`
takes the raw form when it is set and non-empty, else the encoded form, else
raises `RuntimeError`.  Building the storage client from the service-account
JSON is modelled as returning the JSON text the client is built from;
`b64decode` stands for the external `base64.b64decode(·).decode("utf-8")`. -/

structure Config where
  gcsBucket : String
  gcpSaKey : Option String
  gcpSaKeyB64 : Option String
  retryAttempts : Nat
  retryBackoff : Nat

def envTruthy : Option String → Bool
  | none => false
  | some s => !s.isEmpty

def init_gcs_client (b64decode : String → String) (cfg : Config) : Except Unit String :=
  if envTruthy cfg.gcpSaKey then .ok (cfg.gcpSaKey.getD "")
  else if envTruthy cfg.gcpSaKeyB64 then .ok (b64decode (cfg.gcpSaKeyB64.getD ""))
  else .error ()

/-! ## The world the handler acts on

`World` packages the states of the two collaborating stores and the failure
oracles for one invocation: the destination bucket contents, the source
object's bytes and the `ContentLength` reported with its stream, whether
`blob.exists()` raises, whether reading `blob.size` raises, and which
transfer attempts fail (1-indexed; a failing attempt raises inside the
chunked copy, after its fresh source stream was opened and before it is
closed, committing nothing to the destination). -/

structure World where
  bucket : GcsBucket
  srcBytes : List Nat
  srcSize : Option Nat
  existsRaises : Bool
  sizeRaises : Bool
  attemptFails : Nat → Bool

/-! ## Idempotency gate (`file_exists_and_same_size`, app.py lines 76–83)

```python
def file_exists_and_same_size(bucket_obj, blob_name, s3_size):
    blob = bucket_obj.blob(blob_name)
    if not blob.exists():
        return False
    try:
        return (s3_size is not None) and (blob.size == s3_size)
    except Exception:
        return False
```

`Except.error ()` models the un-caught exception from `blob.exists()`
(the caller absorbs it); the `blob.size` exception is caught locally. -/

def file_exists_and_same_size (w : World) (blobName : String) (s3Size : Option Nat) :
    Except Unit Bool :=
  if w.existsRaises then .error ()
  else
    match w.bucket blobName with
    | none => .ok false
    | some bytes =>
      .ok (if w.sizeRaises then false
        else match s3Size with
          | none => false
          | some n => bytes.length == n)

/-! ## The handler (`lambda_handler` with its inner `upload`, app.py 97–143)

The trace records everything observable that the claims mention: the final
outcome, the destination bucket state, the number of committed destination
writes, the number of transfer attempts (calls of `upload`), the backoff
sleeps in order, and how many source streams were opened and closed.
`retriesExhausted` models `retry_fn` re-raising the last error out of the
handler. -/

inductive Outcome where
  | malformedEvent
  | configError
  | skipped
  | success
  | retriesExhausted
  deriving DecidableEq

structure RetrySt where
  bucket : GcsBucket
  destWrites : Nat
  opened : Nat
  closed : Nat
  calls : Nat
  sleeps : List Nat

/-- The `retry_fn(upload, ...)` loop of app.py line 139, specialised to the
stateful `upload` closure of lines 130–137: each attempt opens a fresh
source stream; a failing attempt raises mid-copy, leaving that stream open
and the destination blob uncommitted; a successful attempt commits the
chunked copy under `key` and closes its stream.  As in `retryGo`, `i` is
Python's loop index and `r + 1` the iterations left, so the sleep guard
`i < attempts - 1` is `r ≥ 1`. -/
def runUploadAttempts (w : World) (key : String) (backoff : Nat) :
    (i : Nat) → (remaining : Nat) → RetrySt → RetrySt × Bool
  | _, 0, st => (st, false)
  | i, r + 1, st =>
    let st1 := { st with opened := st.opened + 1, calls := st.calls + 1 }
    if w.attemptFails (i + 1) then
      runUploadAttempts w key backoff (i + 1) r
        (if r ≥ 1 then { st1 with sleeps := st1.sleeps ++ [backoff * (i + 1)] } else st1)
    else
      ({ st1 with
          bucket := upload_stream_to_gcs st1.bucket key w.srcBytes,
          destWrites := st1.destWrites + 1,
          closed := st1.closed + 1 }, true)

structure Trace where
  outcome : Outcome
  bucket : GcsBucket
  destWrites : Nat
  attempts : Nat
  sleeps : List Nat
  opened : Nat
  closed : Nat

def lambda_handler (b64decode : String → String) (cfg : Config) (w : World)
    (event : RawEvent) : Trace :=
  match normalizeEvent event with
  | .error _ => ⟨.malformedEvent, w.bucket, 0, 0, [], 0, 0⟩
  | .ok (_s3Bucket, s3Key) =>
    match init_gcs_client b64decode cfg with
    | .error _ => ⟨.configError, w.bucket, 0, 0, [], 0, 0⟩
    | .ok _saJson =>
      -- `s3_get_object_stream` opens the initial source stream and yields
      -- `(s3_stream, s3_size)`; on the skip path that stream is closed.
      match file_exists_and_same_size w s3Key w.srcSize with
      | .ok true => ⟨.skipped, w.bucket, 0, 0, [], 1, 1⟩
      | _ =>
        let res := runUploadAttempts w s3Key cfg.retryBackoff 0 cfg.retryAttempts
          ⟨w.bucket, 0, 1, 0, 0, []⟩
        if res.2 then
          ⟨.success, res.1.bucket, res.1.destWrites, res.1.calls, res.1.sleeps,
            res.1.opened, res.1.closed⟩
        else
          ⟨.retriesExhausted, res.1.bucket, res.1.destWrites, res.1.calls, res.1.sleeps,
            res.1.opened, res.1.closed⟩

/-! ## Sample inputs reused by witnesses and concrete theorems -/

def sampleDecode : String → String := fun s => s

def cfgA : Config := ⟨"dest-bucket", some "sa-json", none, 3, 2⟩

def evA : RawEvent := ⟨[⟨some "src-bucket", some "data.bin"⟩]⟩

def wEmpty : World := ⟨fun _ => none, [7, 8], some 2, false, false, fun _ => false⟩

def wHave : World :=
  ⟨fun k => if k = "data.bin" then some [7, 8] else none, [7, 8], some 2,
    false, false, fun _ => false⟩

/-! ## Claim theorems -/

/-- Claim C1: for every source object of size `n ≥ 0`, a successful chunked
transfer (8 MiB read/write loop) stores under the destination blob name
exactly the source byte sequence — hence exactly `n` bytes — at the same
key. -/
theorem transfer_writes_exact_bytes (bucketObj : GcsBucket) (destBlobName : String)
    (s3Stream : List Nat) :
    upload_stream_to_gcs bucketObj destBlobName s3Stream destBlobName = some s3Stream ∧
    Option.map List.length (upload_stream_to_gcs bucketObj destBlobName s3Stream destBlobName)
      = some s3Stream.length := by
  have h : upload_stream_to_gcs bucketObj destBlobName s3Stream destBlobName
      = some (writeChunks s3Stream []) := by
    unfold upload_stream_to_gcs writeBlob
    simp
  rw [h, writeChunks_spec]
  simp

/-- Claim C5: the raw object key is percent-decoded exactly once with `+` as
space: `"my%20file%2Bname.txt"` normalizes to `"my file+name.txt"`, the
normalizer returns that literal key, and the handler uses the decoded key as
the destination blob name. -/
theorem key_decoding :
    unquote_plus "my%20file%2Bname.txt" = "my file+name.txt" ∧
    normalizeEvent ⟨[⟨some "src-bucket", some "my%20file%2Bname.txt"⟩]⟩ =
      .ok ("src-bucket", "my file+name.txt") ∧
    (lambda_handler sampleDecode cfgA wEmpty
        ⟨[⟨some "src-bucket", some "my%20file%2Bname.txt"⟩]⟩).bucket "my file+name.txt"
      = some [7, 8] := by
  refine ⟨rfl, rfl, ?_⟩
  have h : (lambda_handler sampleDecode cfgA wEmpty
        ⟨[⟨some "src-bucket", some "my%20file%2Bname.txt"⟩]⟩).bucket "my file+name.txt"
      = some (writeChunks [7, 8] []) := rfl
  rw [h, writeChunks_spec]
  rfl

/-- Claim C6: when the expected nested fields are absent or ill-shaped, the
handler fails immediately with the malformed-event classification: no
transfer attempt, no backoff sleep, no stream opened, no destination
write. -/
theorem malformed_event_aborts (b64decode : String → String) (cfg : Config)
    (w : World) (event : RawEvent)
    (hm : normalizeEvent event = .error ()) :
    lambda_handler b64decode cfg w event =
      ⟨.malformedEvent, w.bucket, 0, 0, [], 0, 0⟩ := by
  unfold lambda_handler
  rw [hm]

/-- Witness for C6: an event whose only record lacks the object key aborts
as malformed with zero attempts and zero sleeps. -/
theorem malformed_event_aborts_witness :
    lambda_handler sampleDecode cfgA wEmpty ⟨[⟨some "src-bucket", none⟩]⟩ =
      ⟨.malformedEvent, wEmpty.bucket, 0, 0, [], 0, 0⟩ :=
  malformed_event_aborts sampleDecode cfgA wEmpty ⟨[⟨some "src-bucket", none⟩]⟩ rfl

/-- The gate returns `ok true` exactly when `blob.exists()` does not raise,
the destination holds the key, reading `blob.size` does not raise, and the
recorded size equals the size hint. -/
theorem gate_skip_iff (w : World) (key : String) :
    file_exists_and_same_size w key w.srcSize = .ok true ↔
      (w.existsRaises = false ∧ w.sizeRaises = false ∧
        ∃ bytes, w.bucket key = some bytes ∧ w.srcSize = some bytes.length) := by
  unfold file_exists_and_same_size
  cases hex : w.existsRaises with
  | true => simp [hex]
  | false =>
    cases hb : w.bucket key with
    | none => simp [hex, hb]
    | some bytes =>
      cases hsr : w.sizeRaises with
      | true => simp [hex, hb, hsr]
      | false =>
        cases hss : w.srcSize with
        | none => simp [hex, hb, hsr, hss]
        | some n =>
          simp only [hex, hb, hsr, hss, Bool.false_eq_true, if_false,
            Except.ok.injEq, beq_iff_eq, Option.some.injEq, eq_self_iff_true,
            true_and]
          constructor
          · intro hlen
            exact ⟨bytes, rfl, by omega⟩
          · rintro ⟨bytes2, hb2, hn2⟩
            subst hb2
            omega

/-- The number of `upload` calls never decreases across the retry loop. -/
theorem runUploadAttempts_calls_mono (w : World) (key : String) (backoff : Nat) :
    ∀ r i st, st.calls ≤ (runUploadAttempts w key backoff i r st).1.calls := by
  intro r
  induction r with
  | zero => intro i st; exact le_refl _
  | succ r ih =>
    intro i st
    rw [runUploadAttempts]
    by_cases hf : w.attemptFails (i + 1)
    · simp only [hf, if_true]
      refine le_trans ?_ (ih (i + 1) _)
      split
      · exact Nat.le_succ _
      · exact Nat.le_succ _
    · simp only [hf, if_false]
      exact Nat.le_succ _

/-- With at least one attempt in the budget, the retry loop performs at
least one `upload` call. -/
theorem runUploadAttempts_calls_pos (w : World) (key : String) (backoff r i : Nat)
    (st : RetrySt) (hr : 1 ≤ r) :
    st.calls + 1 ≤ (runUploadAttempts w key backoff i r st).1.calls := by
  obtain ⟨q, rfl⟩ : ∃ q, r = q + 1 := ⟨r - 1, by omega⟩
  rw [runUploadAttempts]
  by_cases hf : w.attemptFails (i + 1)
  · simp only [hf, if_true]
    refine le_trans ?_ (runUploadAttempts_calls_mono w key backoff q (i + 1) _)
    split
    · exact le_refl _
    · exact le_refl _
  · simp only [hf, if_false]
    exact le_refl _

/-- Claim C3: the idempotency gate skips exactly when an object exists at
the destination under the same key with recorded size equal to the size
hint; an absent size hint or a raising existence check yields "do not skip"
and the handler proceeds to the transfer instead of failing or skipping. -/
theorem idempotency_gate_policy (b64decode : String → String) (cfg : Config)
    (w : World) (event : RawEvent) (bkt key saJson : String)
    (hn : normalizeEvent event = .ok (bkt, key))
    (hc : init_gcs_client b64decode cfg = .ok saJson)
    (hatt : 1 ≤ cfg.retryAttempts) :
    ((lambda_handler b64decode cfg w event).outcome = .skipped ↔
      (w.existsRaises = false ∧ w.sizeRaises = false ∧
        ∃ bytes, w.bucket key = some bytes ∧ w.srcSize = some bytes.length)) ∧
    ((w.srcSize = none ∨ w.existsRaises = true) →
      (lambda_handler b64decode cfg w event).outcome ≠ .skipped ∧
      1 ≤ (lambda_handler b64decode cfg w event).attempts) := by
  have hgate := gate_skip_iff w key
  rcases hg : file_exists_and_same_size w key w.srcSize with e | b
  · -- the existence check raised; the handler catches the error and transfers
    have hnot : ¬(w.existsRaises = false ∧ w.sizeRaises = false ∧
        ∃ bytes, w.bucket key = some bytes ∧ w.srcSize = some bytes.length) := by
      intro hcontra
      rw [← hgate, hg] at hcontra
      exact Except.noConfusion hcontra
    have hne : (lambda_handler b64decode cfg w event).outcome ≠ .skipped := by
      unfold lambda_handler
      rw [hn, hc]
      dsimp only
      rw [hg]
      dsimp only
      split <;> simp
    have hatt1 : 1 ≤ (lambda_handler b64decode cfg w event).attempts := by
      unfold lambda_handler
      rw [hn, hc]
      dsimp only
      rw [hg]
      dsimp only
      split <;>
        simpa using runUploadAttempts_calls_pos w key cfg.retryBackoff
          cfg.retryAttempts 0 ⟨w.bucket, 0, 1, 0, 0, []⟩ hatt
    exact ⟨⟨fun h => absurd h hne, fun h => absurd h hnot⟩, fun _ => ⟨hne, hatt1⟩⟩
  · cases b with
    | false =>
      -- gate said "do not skip": the handler transfers
      have hnot : ¬(w.existsRaises = false ∧ w.sizeRaises = false ∧
          ∃ bytes, w.bucket key = some bytes ∧ w.srcSize = some bytes.length) := by
        intro hcontra
        rw [← hgate, hg] at hcontra
        simp at hcontra
      have hne : (lambda_handler b64decode cfg w event).outcome ≠ .skipped := by
        unfold lambda_handler
        rw [hn, hc]
        dsimp only
        rw [hg]
        dsimp only
        split <;> simp
      have hatt1 : 1 ≤ (lambda_handler b64decode cfg w event).attempts := by
        unfold lambda_handler
        rw [hn, hc]
        dsimp only
        rw [hg]
        dsimp only
        split <;>
          simpa using runUploadAttempts_calls_pos w key cfg.retryBackoff
            cfg.retryAttempts 0 ⟨w.bucket, 0, 1, 0, 0, []⟩ hatt
      exact ⟨⟨fun h => absurd h hne, fun h => absurd h hnot⟩, fun _ => ⟨hne, hatt1⟩⟩
    | true =>
      -- gate said "skip"
      have hcond := hgate.mp hg
      have hout : (lambda_handler b64decode cfg w event).outcome = .skipped := by
        unfold lambda_handler
        rw [hn, hc]
        dsimp only
        rw [hg]
      refine ⟨⟨fun _ => hcond, fun _ => hout⟩, fun habs => ?_⟩
      rcases hcond with ⟨hex, hsr2, bytes2, hbk2, hsz⟩
      rcases habs with hnone | hraise
      · rw [hnone] at hsz
        exact Option.noConfusion hsz
      · rw [hex] at hraise
        exact Bool.noConfusion hraise

/-- Witness for C3: with the object already present at the destination under
the same key and matching size, the instantiated gate property holds. -/
theorem idempotency_gate_policy_witness :
    ((lambda_handler sampleDecode cfgA wHave evA).outcome = .skipped ↔
      (wHave.existsRaises = false ∧ wHave.sizeRaises = false ∧
        ∃ bytes, wHave.bucket "data.bin" = some bytes ∧ wHave.srcSize = some bytes.length)) ∧
    ((wHave.srcSize = none ∨ wHave.existsRaises = true) →
      (lambda_handler sampleDecode cfgA wHave evA).outcome ≠ .skipped ∧
      1 ≤ (lambda_handler sampleDecode cfgA wHave evA).attempts) :=
  idempotency_gate_policy sampleDecode cfgA wHave evA "src-bucket" "data.bin" "sa-json"
    rfl rfl (by decide)

/-- Claim C4: once replication of a key has succeeded, replaying the same
event against the unchanged source yields `Skipped` on the second invocation
with zero destination writes. -/
theorem replay_after_success_skips (b64decode : String → String) (cfg : Config)
    (w : World) (event : RawEvent) (bkt key saJson : String)
    (hn : normalizeEvent event = .ok (bkt, key))
    (hc : init_gcs_client b64decode cfg = .ok saJson)
    (hatt : 1 ≤ cfg.retryAttempts)
    (hfree : w.bucket key = none)
    (hok : w.attemptFails 1 = false)
    (hex : w.existsRaises = false) (hsr : w.sizeRaises = false)
    (hsz : w.srcSize = some w.srcBytes.length) :
    (lambda_handler b64decode cfg w event).outcome = .success ∧
    (lambda_handler b64decode cfg w event).destWrites = 1 ∧
    (lambda_handler b64decode cfg
        { w with bucket := (lambda_handler b64decode cfg w event).bucket } event).outcome
      = .skipped ∧
    (lambda_handler b64decode cfg
        { w with bucket := (lambda_handler b64decode cfg w event).bucket } event).destWrites
      = 0 := by
  obtain ⟨q, hq⟩ : ∃ q, cfg.retryAttempts = q + 1 :=
    ⟨cfg.retryAttempts - 1, by omega⟩
  have hg1 : file_exists_and_same_size w key w.srcSize = .ok false := by
    unfold file_exists_and_same_size
    rw [hex, hfree]
    simp
  have hrun : runUploadAttempts w key cfg.retryBackoff 0 (q + 1)
      ⟨w.bucket, 0, 1, 0, 0, []⟩ =
      (⟨upload_stream_to_gcs w.bucket key w.srcBytes, 1, 2, 1, 1, []⟩, true) := by
    rw [runUploadAttempts]
    simp [hok]
  have ht1 : lambda_handler b64decode cfg w event =
      ⟨.success, upload_stream_to_gcs w.bucket key w.srcBytes, 1, 1, [], 2, 1⟩ := by
    unfold lambda_handler
    rw [hn, hc]
    dsimp only
    rw [hg1]
    dsimp only
    rw [hq, hrun]
    rfl
  have hb2 : upload_stream_to_gcs w.bucket key w.srcBytes key = some w.srcBytes := by
    unfold upload_stream_to_gcs writeBlob
    rw [if_pos rfl, writeChunks_spec]
    simp
  have hg2 : file_exists_and_same_size
      { w with bucket := upload_stream_to_gcs w.bucket key w.srcBytes } key w.srcSize
      = .ok true := by
    unfold file_exists_and_same_size
    dsimp only
    rw [hex, hb2, hsr, hsz]
    simp
  have ht2 : lambda_handler b64decode cfg
      { w with bucket := (lambda_handler b64decode cfg w event).bucket } event =
      ⟨.skipped, (lambda_handler b64decode cfg w event).bucket, 0, 0, [], 1, 1⟩ := by
    rw [ht1]
    dsimp only
    unfold lambda_handler
    rw [hn, hc]
    dsimp only
    rw [hg2]
  refine ⟨?_, ?_, ?_, ?_⟩
  · rw [ht1]
  · rw [ht1]
  · rw [ht2]
  · rw [ht2]

/-- Witness for C4: on a fresh destination, the first delivery succeeds with
one destination write and the replay is skipped with zero writes. -/
theorem replay_after_success_skips_witness :
    (lambda_handler sampleDecode cfgA wEmpty evA).outcome = .success ∧
    (lambda_handler sampleDecode cfgA wEmpty evA).destWrites = 1 ∧
    (lambda_handler sampleDecode cfgA
        { wEmpty with bucket := (lambda_handler sampleDecode cfgA wEmpty evA).bucket }
        evA).outcome = .skipped ∧
    (lambda_handler sampleDecode cfgA
        { wEmpty with bucket := (lambda_handler sampleDecode cfgA wEmpty evA).bucket }
        evA).destWrites = 0 :=
  replay_after_success_skips sampleDecode cfgA wEmpty evA "src-bucket" "data.bin"
    "sa-json" rfl rfl (by decide) rfl rfl rfl rfl rfl

/-- Claim C7 is contradicted by the code: on the ordinary successful-transfer
path the handler opens two source streams (the initial one for the size
probe and the one opened by `upload`) but closes only the one inside
`upload`; the stream opened at line 115 of app.py is never closed when the
gate does not skip, so a source stream remains open after the handler
returns. -/
theorem source_stream_leak_on_success :
    (lambda_handler sampleDecode cfgA wEmpty evA).outcome = .success ∧
    (lambda_handler sampleDecode cfgA wEmpty evA).opened = 2 ∧
    (lambda_handler sampleDecode cfgA wEmpty evA).closed = 1 :=
  ⟨rfl, rfl, rfl⟩

/-- Claim C8 counterexample: supplying both credential forms raises no
error — initialization succeeds with the raw secret and the handler
processes an event normally, refuting "exactly one of the two forms must be
supplied; otherwise a ConfigurationError is raised". -/
theorem both_credential_forms_accepted :
    init_gcs_client sampleDecode ⟨"dest-bucket", some "raw-secret", some "encoded", 3, 2⟩
      = .ok "raw-secret" ∧
    (lambda_handler sampleDecode ⟨"dest-bucket", some "raw-secret", some "encoded", 3, 2⟩
        wEmpty evA).outcome = .success :=
  ⟨rfl, rfl⟩

/-- Claim C8 (amended): at least one non-empty credential form must be
supplied; when neither is, the configuration error is raised while handling
an event — after normalization and before any stream open, transfer attempt,
backoff sleep, or destination write — not at process startup. -/
theorem missing_credentials_error (b64decode : String → String) (cfg : Config)
    (w : World) (event : RawEvent) (bkt key : String)
    (hn : normalizeEvent event = .ok (bkt, key))
    (h1 : cfg.gcpSaKey = none) (h2 : cfg.gcpSaKeyB64 = none) :
    lambda_handler b64decode cfg w event =
      ⟨.configError, w.bucket, 0, 0, [], 0, 0⟩ := by
  have hcl : init_gcs_client b64decode cfg = .error () := by
    simp [init_gcs_client, envTruthy, h1, h2]
  unfold lambda_handler
  rw [hn]
  dsimp only
  rw [hcl]

/-- Witness for the amended C8: with neither credential form set, the
handler yields the configuration-error trace with zero attempts, sleeps,
stream opens and writes. -/
theorem missing_credentials_error_witness :
    lambda_handler sampleDecode ⟨"dest-bucket", none, none, 3, 2⟩ wEmpty evA =
      ⟨.configError, wEmpty.bucket, 0, 0, [], 0, 0⟩ :=
  missing_credentials_error sampleDecode ⟨"dest-bucket", none, none, 3, 2⟩ wEmpty evA
    "src-bucket" "data.bin" rfl rfl rfl

/-- Claim C10: when both forms are supplied, initialization does not fail:
the raw form takes precedence, the encoded form and the decoder are ignored,
and the client is built from the raw secret. -/
theorem raw_credential_precedence (b64decode : String → String) (cfg : Config)
    (raw : String) (hr : cfg.gcpSaKey = some raw) (hne : raw.isEmpty = false) :
    init_gcs_client b64decode cfg = .ok raw := by
  simp [init_gcs_client, envTruthy, hr, hne]

/-- Witness for C10: both forms set, a decoder that would mangle its input,
and the raw secret is still what the client is built from. -/
theorem raw_credential_precedence_witness :
    init_gcs_client (fun s => s ++ s)
      ⟨"dest-bucket", some "raw-secret", some "encoded", 3, 2⟩ = .ok "raw-secret" :=
  raw_credential_precedence (fun s => s ++ s)
    ⟨"dest-bucket", some "raw-secret", some "encoded", 3, 2⟩ "raw-secret" rfl rfl

end Replicator
